import Mathlib

/-!
# Dokku installer (`contrib/dokku-installer.go`) — verification development

A shallow embedding of the installer wizard.  Go strings are Lean `String`s,
the file system is a map from path to contents, and every interaction with the
operating system (file writes, removals, subprocesses, network probes) goes
through an explicit `World` value together with an `Env` that fixes what the
environment answers (which operations fail, what the probes return).
-/

namespace DokkuInstaller

/-! ## Go standard library: `unicode`, `strings`, `path` -/

/-- Go `unicode.IsSpace`: the Latin-1 white space characters and the other
code points with the Unicode White_Space property. -/
def isSpace (c : Char) : Bool :=
  let n := c.toNat
  (9 ≤ n && n ≤ 13) || n == 32 || n == 0x85 || n == 0xA0 || n == 0x1680 ||
  (0x2000 ≤ n && n ≤ 0x200A) || n == 0x2028 || n == 0x2029 || n == 0x202F ||
  n == 0x205F || n == 0x3000

/-- Characters of a string with leading and trailing white space dropped. -/
def trimChars (cs : List Char) : List Char :=
  ((cs.dropWhile isSpace).reverse.dropWhile isSpace).reverse

/-- Go `strings.TrimSpace`: the string with all leading and trailing white
space removed. -/
def TrimSpace (s : String) : String := ⟨trimChars s.data⟩

/-- Cut `s` at the first occurrence of the non-empty separator `sep`
(Go `strings.Index` followed by the two slicings of `genSplit`): the text
before the separator and the text after it, or `none` without occurrence. -/
def cutFirst (sep : List Char) : List Char → Option (List Char × List Char)
  | [] => none
  | c :: cs =>
    if sep.isPrefixOf (c :: cs) then some ([], (c :: cs).drop sep.length)
    else match cutFirst sep cs with
      | some (a, b) => some (c :: a, b)
      | none => none

/-- The loop of Go `strings.genSplit`: `k` is the number of cuts still allowed
(`n - 1 - i` in the Go code); the remainder is stored as the last piece. -/
def splitLoop (sep : List Char) : Nat → List Char → List (List Char)
  | 0, s => [s]
  | k + 1, s =>
    match cutFirst sep s with
    | none => [s]
    | some (a, b) => a :: splitLoop sep k b

/-- Go `strings.explode`: at most `k + 1` pieces of one character each, the
last piece holding the remainder. -/
def explode : Nat → List Char → List (List Char)
  | _, [] => []
  | 0, s => [s]
  | k + 1, c :: cs => [c] :: explode k cs

/-- Go `strings.SplitN(s, sep, n)`: `n = 0` gives no piece, `n < 0` all
pieces, `n > 0` at most `n` pieces, the last one being the unsplit
remainder. -/
def SplitN (s sep : String) (n : Int) : List String :=
  if n = 0 then []
  else
    let k : Nat := if n < 0 then s.data.length else n.toNat - 1
    if sep = "" then (explode k s.data).map String.mk
    else (splitLoop sep.data k s.data).map String.mk

/-- Components of a path: the texts between the slashes. -/
def splitSlash : List Char → List (List Char)
  | [] => [[]]
  | c :: cs =>
    if c = '/' then [] :: splitSlash cs
    else match splitSlash cs with
      | [] => [[c]]
      | x :: xs => (c :: x) :: xs

/-- One component of Go `path.Clean`, on the stack of kept components (top
first): empty and `.` components are dropped, `..` removes the component
before it, or is kept when the path is not rooted and nothing can be removed,
any other component is kept. -/
def cleanStep (rooted : Bool) (stack : List (List Char)) (c : List Char) :
    List (List Char) :=
  if c = [] ∨ c = ['.'] then stack
  else if c = ['.', '.'] then
    match stack with
    | top :: rest =>
      if top = ['.', '.'] then (if rooted then stack else c :: stack) else rest
    | [] => if rooted then [] else [c]
  else c :: stack

/-- Kept components joined by slashes. -/
def joinSlash : List (List Char) → List Char
  | [] => []
  | [c] => c
  | c :: d :: rest => c ++ '/' :: joinSlash (d :: rest)

/-- Go `path.Clean` on characters. -/
def cleanChars (p : List Char) : List Char :=
  let rooted := p.head? = some '/'
  let kept := ((splitSlash p).foldl (cleanStep rooted) []).reverse
  if rooted then '/' :: joinSlash kept
  else if kept = [] then ['.'] else joinSlash kept

/-- Go `path.Clean`: the shortest path name equivalent to `p` by purely
lexical processing. -/
def Clean (p : String) : String := ⟨cleanChars p.data⟩

/-- Go `path.Join` of two elements: the elements joined by a slash, empty
elements ignored, and the result cleaned. -/
def pathJoin (a b : String) : String :=
  if a ≠ "" then Clean (a ++ "/" ++ b)
  else if b ≠ "" then Clean b
  else ""

/-! ## The outside world -/

/-- An externally visible action of the program, in the order of occurrence. -/
inductive Event
  /-- A call of `ioutil.WriteFile` on a path with the given data. -/
  | write (path data : String)
  /-- A call of `os.Remove` on a path. -/
  | remove (path : String)
  /-- A call of `Start` or `Run` on a command with the given argument vector. -/
  | exec (argv : List String)
  /-- Data accepted on the standard input of a started command. -/
  | stdin (argv : List String) (data : String)
  /-- A line printed on standard output by `fmt.Println`. -/
  | print (line : String)
  deriving DecidableEq, Repr

/-- The external state: files (path to contents, `none` for an absent file)
and the actions performed so far. -/
structure World where
  fs : String → Option String
  trace : List Event

/-- The ways `ioutil.WriteFile` can fail: opening fails (file untouched), the
write stops after some bytes (file truncated to them), or closing fails. -/
inductive WriteFault
  | openFails (err : String)
  | shortWrite (written : Nat) (err : String)
  | closeFails (err : String)
  deriving DecidableEq

/-- The body of an HTTP response as returned by `http.Get`: what
`ioutil.ReadAll(resp.Body)` yields. -/
structure HttpResponse where
  readAll : String × Option String

/-- What the environment answers to the program.  A Go `error` is
`Option String`: `none` for `nil`, otherwise the error text. -/
structure Env where
  /-- Value of `os.Getenv("DOKKU_ROOT")`, empty when unset. -/
  dokkuRoot : String
  /-- Value of `flag.Arg(0)`, empty without argument. -/
  arg0 : String
  /-- Failure of reading a file for a reason other than its absence. -/
  readFault : String → Option String
  /-- Failure of writing a file. -/
  writeFault : String → Option WriteFault
  /-- Failure of removing a file for a reason other than its absence. -/
  removeFault : String → Option String
  /-- Result of `os.Readlink`. -/
  readlink : String → String × Option String
  /-- Result of `ioutil.ReadDir`: the names of the entries. -/
  readDir : String → List String × Option String
  /-- Result of `os.Hostname`. -/
  osHostname : String × Option String
  /-- Result of `http.Get`: the response pointer (`none` for `nil`) and the error. -/
  httpGet : String → Option HttpResponse × Option String
  /-- Failure of `cmd.StdinPipe`. -/
  stdinPipeFault : List String → Option String
  /-- Failure of `cmd.Start`. -/
  startFault : List String → Option String
  /-- Failure of writing to the standard input pipe of a command. -/
  stdinWriteFault : List String → Option String
  /-- Failure of closing the standard input pipe of a command. -/
  stdinCloseFault : List String → Option String
  /-- Failure of `cmd.Wait` (including a non-zero exit status). -/
  waitFault : List String → Option String

/-- Result of a Go function call that may panic. -/
inductive Outcome (α : Type)
  | ret (a : α)
  | panic (msg : String)
  deriving DecidableEq

/-- The world after one more action. -/
def World.emit (w : World) (e : Event) : World :=
  { w with trace := w.trace ++ [e] }

/-- The world with the contents of one path replaced. -/
def World.setFile (w : World) (path : String) (c : Option String) : World :=
  { w with fs := fun q => if q = path then c else w.fs q }

/-- Go `fmt.Println` of one line. -/
def World.println (w : World) (line : String) : World := w.emit (.print line)

/-- Go `ioutil.ReadFile`. -/
def ReadFile (env : Env) (path : String) (w : World) : String × Option String :=
  match env.readFault path with
  | some e => ("", some e)
  | none =>
    match w.fs path with
    | some c => (c, none)
    | none => ("", some ("open " ++ path ++ ": no such file or directory"))

/-- Go `ioutil.WriteFile`: creates or truncates the file and writes the data. -/
def WriteFile (env : Env) (path data : String) (w : World) : Option String × World :=
  let w := w.emit (.write path data)
  match env.writeFault path with
  | some (.openFails e) => (some e, w)
  | some (.shortWrite n e) => (some e, w.setFile path (some ⟨data.data.take n⟩))
  | some (.closeFails e) => (some e, w.setFile path (some data))
  | none => (none, w.setFile path (some data))

/-- Go `os.Remove`: removing an absent file is an error. -/
def Remove (env : Env) (path : String) (w : World) : Option String × World :=
  let w := w.emit (.remove path)
  match env.removeFault path with
  | some e => (some e, w)
  | none =>
    match w.fs path with
    | some _ => (none, w.setFile path none)
    | none => (some ("remove " ++ path ++ ": no such file or directory"), w)

/-- Go `exec.Command(argv...).Run()`: start the command and wait for it. -/
def Run (env : Env) (argv : List String) (w : World) : Option String × World :=
  let w := w.emit (.exec argv)
  match env.startFault argv with
  | some e => (some e, w)
  | none => (env.waitFault argv, w)

/-! ## The program -/

def VERSION : String := "v0.3.17"
def ROOT_KEYS : String := "/root/.ssh/authorized_keys"
def SERVICE_FILE : String := "/etc/init/dokku-installer.conf"
def NGINX_CONF : String := "/etc/nginx/conf.d/dokku-installer.conf"
def NGINX_SITES_ENABLED : String := "/etc/nginx/sites-enabled"

/-- Source `getAdminKey` (lines 22-29). -/
def getAdminKey (env : Env) (w : World) : Outcome (String × Option String) :=
  match ReadFile env ROOT_KEYS w with
  | (_, some err) => .ret ("", some err)
  | (keys, none) =>
    match SplitN keys "\n" 1 with
    | k :: _ => .ret (k, none)
    | [] => .panic "index out of range"

/-- Source `getDokkuRoot` (lines 31-38). -/
def getDokkuRoot (env : Env) : String :=
  if env.dokkuRoot ≠ "" then env.dokkuRoot else "/home/dokku"

/-- Source `getExternalIP` (lines 40-54).  The deferred call
`resp.Body.Close()` is set up before the error is looked at: evaluating
`resp.Body` on a `nil` response panics. -/
def getExternalIP (env : Env) : Outcome (String × Option String) :=
  match env.httpGet "http://icanhazip.com" with
  | (none, _) => .panic "invalid memory address or nil pointer dereference"
  | (some _, some err) => .ret ("", some err)
  | (some resp, none) =>
    match resp.readAll with
    | (_, some err) => .ret ("", some err)
    | (body, none) => .ret (TrimSpace body, none)

/-- Source `testHostname` (lines 56-58). -/
def testHostname (env : Env) (hostname : String) (w : World) : Option String × World :=
  Run env ["dig", "+short", hostname] w

/-- Source `getHostname` (lines 60-71). -/
def getHostname (env : Env) (w : World) : Outcome (String × Option String) × World :=
  match env.osHostname with
  | (hostname, err) =>
    if err ≠ none ∨ hostname = "" then (getExternalIP env, w)
    else
      match testHostname env hostname w with
      | (some _, w1) => (getExternalIP env, w1)
      | (none, w1) => (.ret (hostname, none), w1)

/-- Body of a response: plain text, or `TEMPLATE` filled in with its three
arguments by `fmt.Fprintf`. -/
inductive Body
  | text (s : String)
  | page (version adminKey hostname : String)
  deriving DecidableEq

/-- What a handler leaves in its `http.ResponseWriter`. -/
structure Response where
  status : Nat
  body : Body
  deriving DecidableEq

/-- Go `http.Error`: the message followed by a newline, with the status code. -/
def httpError (msg : String) (code : Nat) : Response :=
  { status := code, body := .text (msg ++ "\n") }

/-- A request as the handlers see it: the method and the form fields in order
of precedence. -/
structure Request where
  Method : String
  form : List (String × String)

/-- Go `r.FormValue`: the first value of the field, empty when absent. -/
def Request.FormValue (r : Request) (key : String) : String :=
  match r.form.lookup key with
  | some v => v
  | none => ""

/-- Source `handleRoot` (lines 73-87). -/
def handleRoot (env : Env) (w : World) : Outcome Response × World :=
  match getAdminKey env w with
  | .panic m => (.panic m, w)
  | .ret (adminKey, err) =>
    let (adminKey, w1) :=
      match err with
      | some e => ("", w.println e)
      | none => (adminKey, w)
    match getHostname env w1 with
    | (.panic m, w2) => (.panic m, w2)
    | (.ret (hostname, err), w2) =>
      let (hostname, w3) :=
        match err with
        | some e => ("", w2.println e)
        | none => (hostname, w2)
      (.ret { status := 200, body := .page VERSION adminKey hostname }, w3)

/-- Argument vector of the SSH ACL tool (source line 122). -/
def aclCommand : List String := ["sshcommand", "acl-add", "dokku", "admin"]

/-- Source `handleSetup`, lines 121-147: run the SSH ACL tool with the key on
its standard input. -/
def addSSHKey (env : Env) (sshKey : String) (w : World) : Option String × World :=
  match env.stdinPipeFault aclCommand with
  | some err => (some err, w)
  | none =>
    let w1 := w.emit (.exec aclCommand)
    match env.startFault aclCommand with
    | some err => (some err, w1)
    | none =>
      match env.stdinWriteFault aclCommand with
      | some err => (some err, w1)
      | none =>
        let w2 := w1.emit (.stdin aclCommand sshKey)
        match env.stdinCloseFault aclCommand with
        | some err => (some err, w2)
        | none =>
          match env.waitFault aclCommand with
          | some err => (some err, w2)
          | none => (none, w2)

/-- One teardown step: a failure is printed and otherwise ignored. -/
def logged (step : Option String × World) : World :=
  match step with
  | (some err, w) => w.println err
  | (none, w) => w

/-- Source `handleSetup`, lines 150-162: the teardown steps. -/
def selfdestruct (env : Env) (w : World) : World :=
  let w1 := logged (Remove env NGINX_CONF w)
  let w2 := logged (Run env ["restart nginx"] w1)
  let w3 := logged (Remove env SERVICE_FILE w2)
  logged (Run env ["stop dokku-installer"] w3)

/-- Source `handleSetup` (lines 89-164). -/
def handleSetup (env : Env) (r : Request) (w : World) : Response × World :=
  if r.Method ≠ "POST" then (httpError "Method not allowed" 405, w)
  else
    let vhostFile := pathJoin (getDokkuRoot env) "VHOST"
    let hostnameFile := pathJoin (getDokkuRoot env) "HOSTNAME"
    let vhost := r.FormValue "vhost" == "true"
    let hostname := TrimSpace (r.FormValue "hostname")
    let sshKey := TrimSpace (r.FormValue "key")
    match WriteFile env hostnameFile hostname w with
    | (some err, w1) => (httpError err 500, w1)
    | (none, w1) =>
      match (if vhost then WriteFile env vhostFile hostname w1
             else Remove env vhostFile w1) with
      | (some err, w2) => (httpError err 500, w2)
      | (none, w2) =>
        match addSSHKey env sshKey w2 with
        | (some err, w3) => (httpError err 500, w3)
        | (none, w3) =>
          if env.arg0 = "selfdestruct" then
            ({ status := 200, body := .text "" }, selfdestruct env w3)
          else ({ status := 200, body := .text "" }, w3)

/-- Contents of the boot service definition for an executable path (source
lines 173-176). -/
def initContent (execPath : String) : String :=
  TrimSpace ("\n\t\tstart on runlevel [2345]\n\t\texec " ++ execPath ++ " selfdestruct\n\t")

/-- Contents of the proxy rule (source lines 183-191). -/
def nginxConfig : String :=
  "\n\t\tupstream dokku-installer \x7b server 127.0.0.1:2000; \x7d\n\t\tserver \x7b\n\t\t\tlisten 80;\n\t\t\tlocation / \x7b\n\t\t\t\tproxy_pass http://dokku-installer;\n\t\t\t\x7d\n\t\t\x7d\n\t"

/-- Source `doOnboot`, lines 203-207: remove every enabled site, printing the
failures. -/
def removeSites (env : Env) : List String → World → World
  | [], w => w
  | f :: rest, w =>
    match Remove env (pathJoin NGINX_SITES_ENABLED f) w with
    | (some err, w1) =>
      removeSites env rest (w1.println (NGINX_SITES_ENABLED ++ " " ++ f ++ " " ++ err))
    | (none, w1) => removeSites env rest w1

/-- Source `doOnboot` (lines 166-211). -/
def doOnboot (env : Env) (w : World) : Option String × World :=
  match env.readlink "/proc/self/exe" with
  | (_, some err) => (some err, w)
  | (execPath, none) =>
    match WriteFile env SERVICE_FILE (initContent execPath) w with
    | (some err, w1) => (some err, w1)
    | (none, w1) =>
      match WriteFile env NGINX_CONF nginxConfig w1 with
      | (some err, w2) => (some err, w2)
      | (none, w2) =>
        match env.readDir NGINX_SITES_ENABLED with
        | (_, some err) => (some err, w2)
        | (enabledSites, none) =>
          let w3 := removeSites env enabledSites w2
          (none, w3.println
            "Installed Upstart service and default Nginx virtualhost for installer to run on boot.")

/-! ## Names used in the statements -/

/-- A path component that `path.Clean` keeps as it is. -/
def plainName (n : List Char) : Prop :=
  '/' ∉ n ∧ n ≠ [] ∧ n ≠ ['.'] ∧ n ≠ ['.', '.']

instance (n : List Char) : Decidable (plainName n) := by
  unfold plainName; infer_instance

/-- The marker file of virtual-host naming, `DOKKU_ROOT/VHOST`. -/
def vhostFile (env : Env) : String := pathJoin (getDokkuRoot env) "VHOST"

/-- The hostname file, `DOKKU_ROOT/HOSTNAME`. -/
def hostnameFile (env : Env) : String := pathJoin (getDokkuRoot env) "HOSTNAME"

/-- The text of the error of a failed removal of a path: the fault of the
environment when there is one, otherwise the absence of the file. -/
def removeErrorText (env : Env) (path : String) : String :=
  match env.removeFault path with
  | some e => e
  | none => "remove " ++ path ++ ": no such file or directory"

/-- The paths of the removal calls among a list of actions, in order. -/
def removals : List Event → List String
  | [] => []
  | .remove p :: es => p :: removals es
  | _ :: es => removals es

/-- Every step of the commit of a submission succeeds: the write of the
hostname file, the write of the marker file or its removal (the file being
there), and the five steps of the run of the SSH ACL tool. -/
def stepsSucceed (env : Env) (r : Request) (w : World) : Prop :=
  env.writeFault (hostnameFile env) = none ∧
  (if r.FormValue "vhost" = "true" then env.writeFault (vhostFile env) = none
   else env.removeFault (vhostFile env) = none ∧ w.fs (vhostFile env) ≠ none) ∧
  env.stdinPipeFault aclCommand = none ∧
  env.startFault aclCommand = none ∧
  env.stdinWriteFault aclCommand = none ∧
  env.stdinCloseFault aclCommand = none ∧
  env.waitFault aclCommand = none

/-! ## Sample environments, worlds and requests -/

/-- An environment in which nothing fails, started without argument. -/
def calmEnv : Env where
  dokkuRoot := ""
  arg0 := ""
  readFault := fun _ => none
  writeFault := fun _ => none
  removeFault := fun _ => none
  readlink := fun _ => ("/usr/local/bin/dokku-installer", none)
  readDir := fun _ => (["default", "old-site"], none)
  osHostname := ("dokku.example.com", none)
  httpGet := fun _ => (some ⟨("203.0.113.7\n", none)⟩, none)
  stdinPipeFault := fun _ => none
  startFault := fun _ => none
  stdinWriteFault := fun _ => none
  stdinCloseFault := fun _ => none
  waitFault := fun _ => none

/-- The calm environment started with the argument `selfdestruct`. -/
def selfdestructEnv : Env := { calmEnv with arg0 := "selfdestruct" }

/-- Self-destruct mode on a system where the boot service definition cannot
be removed (the removal is refused) and the teardown commands fail. -/
def stuckEnv : Env :=
  { selfdestructEnv with
    removeFault := fun p =>
      if p = SERVICE_FILE then
        some "remove /etc/init/dokku-installer.conf: operation not permitted"
      else none
    startFault := fun argv =>
      if argv = aclCommand then none else some "executable file not found in $PATH" }

/-- A system after the boot registration, with a marker file of an earlier
setup. -/
def installedWorld : World where
  fs := fun p =>
    if p = SERVICE_FILE then some (initContent "/usr/local/bin/dokku-installer")
    else if p = NGINX_CONF then some nginxConfig
    else if p = "/home/dokku/VHOST" then some "old.example.com"
    else if p = "/home/dokku/HOSTNAME" then some "old.example.com"
    else none
  trace := []

/-- A system after the boot registration on which no setup was made yet. -/
def firstRunWorld : World where
  fs := fun p =>
    if p = SERVICE_FILE then some (initContent "/usr/local/bin/dokku-installer")
    else if p = NGINX_CONF then some nginxConfig
    else none
  trace := []

/-- A submission of the form with virtual-host naming. -/
def vhostRequest : Request where
  Method := "POST"
  form := [("key", "ssh-rsa AAAA admin\n"), ("hostname", " example.com "), ("vhost", "true")]

/-- A submission of the form without virtual-host naming. -/
def plainRequest : Request where
  Method := "POST"
  form := [("key", "ssh-rsa AAAA admin\n"), ("hostname", " example.com ")]

/-- A submission whose hostname field holds white space only. -/
def blankRequest : Request where
  Method := "POST"
  form := [("key", "ssh-rsa AAAA admin\n"), ("hostname", " \t "), ("vhost", "true")]

/-- A page request sent to the setup endpoint. -/
def getRequest : Request where
  Method := "GET"
  form := [("hostname", "example.com"), ("vhost", "true")]

/-- A machine without network: no hostname is configured and the query of
the public address fails before any response arrives. -/
def offlineEnv : Env :=
  { calmEnv with
    osHostname := ("", none)
    httpGet := fun _ => (none, some "Get http://icanhazip.com: dial tcp: no such host") }

/-- A system on which the enabled site `default` cannot be removed. -/
def busyEnv : Env :=
  { calmEnv with
    arg0 := "onboot"
    removeFault := fun p =>
      if p = "/etc/nginx/sites-enabled/default" then
        some "remove /etc/nginx/sites-enabled/default: operation not permitted"
      else none }

/-- A system with two authorized keys and two enabled sites. -/
def twoKeysWorld : World where
  fs := fun p =>
    if p = ROOT_KEYS then some "ssh-rsa AAAA admin\nssh-rsa BBBB guest\n"
    else if p = "/etc/nginx/sites-enabled/default" then some "server \x7b\x7d"
    else if p = "/etc/nginx/sites-enabled/old-site" then some "server \x7b\x7d"
    else none
  trace := []

/-! ## Paths: the last character of a joined path -/

theorem splitSlash_ne_nil (cs : List Char) : splitSlash cs ≠ [] := by
  cases cs with
  | nil => simp [splitSlash]
  | cons c cs =>
    unfold splitSlash
    split
    · simp
    · split <;> simp

theorem splitSlash_append (xs ys : List Char) :
    splitSlash (xs ++ '/' :: ys) = splitSlash xs ++ splitSlash ys := by
  induction xs with
  | nil => simp [splitSlash]
  | cons c xs ih =>
    by_cases hc : c = '/'
    · simp [splitSlash, hc, ih]
    · show splitSlash (c :: (xs ++ '/' :: ys)) = splitSlash (c :: xs) ++ splitSlash ys
      simp only [splitSlash, hc, if_false]
      rw [ih]
      cases hx : splitSlash xs with
      | nil => exact absurd hx (splitSlash_ne_nil xs)
      | cons x rest => simp

theorem splitSlash_of_no_slash (n : List Char) (h : '/' ∉ n) : splitSlash n = [n] := by
  induction n with
  | nil => rfl
  | cons c cs ih =>
    have hc : c ≠ '/' := fun e => h (by simp [e])
    have hcs : '/' ∉ cs := fun e => h (by simp [e])
    simp [splitSlash, hc, ih hcs]

theorem joinSlash_append_singleton (L : List (List Char)) (n : List Char) :
    ∃ P, joinSlash (L ++ [n]) = P ++ n := by
  induction L with
  | nil => exact ⟨[], by simp [joinSlash]⟩
  | cons c rest ih =>
    obtain ⟨P, hP⟩ := ih
    cases rest with
    | nil => exact ⟨c ++ ['/'], by simp [joinSlash]⟩
    | cons d rest =>
      refine ⟨c ++ '/' :: P, ?_⟩
      show c ++ '/' :: joinSlash ((d :: rest) ++ [n]) = _
      rw [hP]
      simp

theorem cleanChars_ends (p n : List Char) (hn : plainName n)
    (hs : ∃ L, splitSlash p = L ++ [n]) : ∃ P, cleanChars p = P ++ n := by
  obtain ⟨L, hL⟩ := hs
  obtain ⟨_, h1, h2, h3⟩ := hn
  unfold cleanChars
  simp only [hL, List.foldl_append, List.foldl_cons, List.foldl_nil]
  have hstep : ∀ r st, cleanStep r st n = n :: st := by
    intro r st; simp [cleanStep, h1, h2, h3]
  rw [hstep, List.reverse_cons]
  obtain ⟨P, hP⟩ := joinSlash_append_singleton
    ((List.foldl (cleanStep (decide (p.head? = some '/'))) [] L).reverse) n
  rw [hP]
  split
  · exact ⟨'/' :: P, by simp⟩
  · split
    · rename_i h; simp at h
    · exact ⟨P, rfl⟩

theorem pathJoin_ends (a b : String) (hb : plainName b.data) :
    ∃ P, (pathJoin a b).data = P ++ b.data := by
  unfold pathJoin
  split
  · apply cleanChars_ends _ _ hb
    refine ⟨splitSlash a.data, ?_⟩
    have : (a ++ "/" ++ b).data = a.data ++ '/' :: b.data := by simp
    rw [this, splitSlash_append, splitSlash_of_no_slash _ hb.1]
  · have hne : b ≠ "" := by
      intro e; apply hb.2.1; rw [e]
    simp only [hne, ne_eq, not_false_eq_true, if_true]
    apply cleanChars_ends _ _ hb
    exact ⟨[], by rw [splitSlash_of_no_slash _ hb.1]; rfl⟩

theorem pathJoin_getLast (a b : String) (hb : plainName b.data) :
    (pathJoin a b).data.getLast? = b.data.getLast? := by
  obtain ⟨P, hP⟩ := pathJoin_ends a b hb
  rw [hP]
  exact List.getLast?_append_of_ne_nil _ hb.2.1

theorem vhostFile_last (env : Env) : (vhostFile env).data.getLast? = some 'T' := by
  unfold vhostFile; rw [pathJoin_getLast _ _ (by decide)]; rfl

theorem hostnameFile_last (env : Env) : (hostnameFile env).data.getLast? = some 'E' := by
  unfold hostnameFile; rw [pathJoin_getLast _ _ (by decide)]; rfl

theorem ne_of_last {p q : String} {c d : Char} (hp : p.data.getLast? = some c)
    (hq : q.data.getLast? = some d) (hcd : c ≠ d) : p ≠ q := by
  intro e; subst e; rw [hp] at hq; exact hcd (Option.some.inj hq)

theorem hostnameFile_ne_vhostFile (env : Env) : hostnameFile env ≠ vhostFile env :=
  ne_of_last (hostnameFile_last env) (vhostFile_last env) (by decide)

theorem SERVICE_FILE_ne_hostnameFile (env : Env) : SERVICE_FILE ≠ hostnameFile env :=
  ne_of_last (c := 'f') (by decide) (hostnameFile_last env) (by decide)

theorem SERVICE_FILE_ne_vhostFile (env : Env) : SERVICE_FILE ≠ vhostFile env :=
  ne_of_last (c := 'f') (by decide) (vhostFile_last env) (by decide)

theorem NGINX_CONF_ne_hostnameFile (env : Env) : NGINX_CONF ≠ hostnameFile env :=
  ne_of_last (c := 'f') (by decide) (hostnameFile_last env) (by decide)

theorem NGINX_CONF_ne_vhostFile (env : Env) : NGINX_CONF ≠ vhostFile env :=
  ne_of_last (c := 'f') (by decide) (vhostFile_last env) (by decide)

theorem SERVICE_FILE_ne_NGINX_CONF : SERVICE_FILE ≠ NGINX_CONF := by decide

/-! ## The primitives of the world -/

@[simp] theorem emit_fs (w : World) (e : Event) : (w.emit e).fs = w.fs := rfl

@[simp] theorem emit_trace (w : World) (e : Event) : (w.emit e).trace = w.trace ++ [e] := rfl

@[simp] theorem println_fs (w : World) (l : String) : (w.println l).fs = w.fs := rfl

@[simp] theorem println_trace (w : World) (l : String) :
    (w.println l).trace = w.trace ++ [.print l] := rfl

@[simp] theorem setFile_trace (w : World) (p : String) (c : Option String) :
    (w.setFile p c).trace = w.trace := rfl

@[simp] theorem setFile_fs_same (w : World) (p : String) (c : Option String) :
    (w.setFile p c).fs p = c := by simp [World.setFile]

theorem setFile_fs_other (w : World) {p q : String} (c : Option String) (h : q ≠ p) :
    (w.setFile p c).fs q = w.fs q := by simp [World.setFile, h]

theorem WriteFile_inv {env : Env} {p d : String} {w w1 : World}
    (h : WriteFile env p d w = (none, w1)) :
    env.writeFault p = none ∧ w1 = (w.emit (.write p d)).setFile p (some d) := by
  unfold WriteFile at h
  cases hf : env.writeFault p with
  | none => rw [hf] at h; simp at h; exact ⟨rfl, h.symm⟩
  | some f => rw [hf] at h; cases f <;> simp at h

theorem WriteFile_of_no_fault {env : Env} {p : String} (d : String) (w : World)
    (h : env.writeFault p = none) :
    WriteFile env p d w = (none, (w.emit (.write p d)).setFile p (some d)) := by
  unfold WriteFile; rw [h]

theorem Remove_inv {env : Env} {p : String} {w w1 : World}
    (h : Remove env p w = (none, w1)) :
    env.removeFault p = none ∧ w.fs p ≠ none ∧ w1 = (w.emit (.remove p)).setFile p none := by
  unfold Remove at h
  cases hf : env.removeFault p with
  | some e => rw [hf] at h; simp at h
  | none =>
    rw [hf] at h
    cases hx : w.fs p with
    | none => simp [hx] at h
    | some c => simp [hx] at h; exact ⟨rfl, by simp, h.symm⟩

theorem Remove_fs_other (env : Env) (w : World) {p q : String} (h : q ≠ p) :
    (Remove env p w).2.fs q = w.fs q := by
  unfold Remove
  cases env.removeFault p with
  | some e => rfl
  | none =>
    cases hx : w.fs p with
    | none => simp [hx]
    | some c => simp [hx, setFile_fs_other _ _ h]

theorem Remove_fs_same (env : Env) (w : World) (p : String)
    (h : env.removeFault p = none) : (Remove env p w).2.fs p = none := by
  unfold Remove
  rw [h]
  cases hx : w.fs p with
  | none => simp [hx]
  | some c => simp [hx]

theorem Remove_trace (env : Env) (w : World) (p : String) :
    (Remove env p w).2.trace = w.trace ++ [.remove p] := by
  unfold Remove
  cases env.removeFault p with
  | some e => rfl
  | none =>
    cases hx : w.fs p with
    | none => simp [hx]
    | some c => simp [hx]

@[simp] theorem Run_fs (env : Env) (argv : List String) (w : World) :
    (Run env argv w).2.fs = w.fs := by
  unfold Run
  cases env.startFault argv <;> rfl

@[simp] theorem logged_fs (s : Option String × World) : (logged s).fs = s.2.fs := by
  obtain ⟨e, w⟩ := s
  cases e <;> rfl

theorem addSSHKey_inv {env : Env} {k : String} {w w1 : World}
    (h : addSSHKey env k w = (none, w1)) :
    w1 = (w.emit (.exec aclCommand)).emit (.stdin aclCommand k) := by
  unfold addSSHKey at h
  cases h1 : env.stdinPipeFault aclCommand <;> rw [h1] at h <;> simp at h
  cases h2 : env.startFault aclCommand <;> rw [h2] at h <;> simp at h
  cases h3 : env.stdinWriteFault aclCommand <;> rw [h3] at h <;> simp at h
  cases h4 : env.stdinCloseFault aclCommand <;> rw [h4] at h <;> simp at h
  cases h5 : env.waitFault aclCommand <;> rw [h5] at h <;> simp at h
  exact h.symm

theorem Remove_of_absent (env : Env) {p : String} {w : World} (h : w.fs p = none) :
    Remove env p w = (some (removeErrorText env p), w.emit (.remove p)) := by
  unfold Remove removeErrorText
  cases env.removeFault p with
  | some e => rfl
  | none => simp [h]

theorem WriteFile_trace (env : Env) (p d : String) (w : World) :
    (WriteFile env p d w).2.trace = w.trace ++ [.write p d] := by
  unfold WriteFile
  cases env.writeFault p with
  | none => rfl
  | some f => cases f <;> rfl

theorem WriteFile_fs_other (env : Env) (d : String) (w : World) {p q : String}
    (h : q ≠ p) : (WriteFile env p d w).2.fs q = w.fs q := by
  unfold WriteFile
  cases env.writeFault p with
  | none => simp [setFile_fs_other _ _ h]
  | some f => cases f <;> simp [setFile_fs_other _ _ h]

theorem WriteFile_fault (env : Env) (p d : String) (w : World)
    (h : env.writeFault p ≠ none) : ∃ e, (WriteFile env p d w).1 = some e := by
  unfold WriteFile
  cases hf : env.writeFault p with
  | none => exact absurd hf h
  | some f => cases f <;> exact ⟨_, rfl⟩

/-! ## White space -/

theorem dropWhile_eq_nil_iff_all (p : Char → Bool) (l : List Char) :
    l.dropWhile p = [] ↔ ∀ c ∈ l, p c = true := by
  induction l with
  | nil => simp
  | cons a l ih =>
    by_cases ha : p a = true
    · simp [List.dropWhile_cons, ha, ih]
    · simp [List.dropWhile_cons, ha]

theorem trimChars_eq_nil_iff (cs : List Char) :
    trimChars cs = [] ↔ ∀ c ∈ cs, isSpace c = true := by
  unfold trimChars
  rw [List.reverse_eq_nil_iff, dropWhile_eq_nil_iff_all]
  constructor
  · intro h
    rw [← dropWhile_eq_nil_iff_all]
    cases hd : cs.dropWhile isSpace with
    | nil => rfl
    | cons a l =>
      have h1 : isSpace a = true := h a (by simp [hd])
      have h2 := List.head_dropWhile_not isSpace cs (by simp [hd])
      simp [hd, h1] at h2
  · intro h c hc
    rw [(dropWhile_eq_nil_iff_all isSpace cs).2 h] at hc
    simp at hc

theorem head?_dropWhile_false (p : Char → Bool) (l : List Char) (c : Char)
    (h : (l.dropWhile p).head? = some c) : p c = false := by
  have := List.head?_dropWhile_not p l
  rw [h] at this
  exact this

/-- What trimming does: the input is the result between two runs of white
space, and the result neither starts nor ends with white space. -/
theorem trimChars_spec (cs : List Char) :
    ∃ pre post, cs = pre ++ trimChars cs ++ post ∧
      (∀ c ∈ pre, isSpace c = true) ∧ (∀ c ∈ post, isSpace c = true) ∧
      (∀ c, (trimChars cs).head? = some c → isSpace c = false) ∧
      (∀ c, (trimChars cs).getLast? = some c → isSpace c = false) := by
  have hm : cs.dropWhile isSpace = trimChars cs ++
      ((cs.dropWhile isSpace).reverse.takeWhile isSpace).reverse := by
    unfold trimChars
    rw [← List.reverse_append, List.takeWhile_append_dropWhile, List.reverse_reverse]
  refine ⟨cs.takeWhile isSpace, ((cs.dropWhile isSpace).reverse.takeWhile isSpace).reverse,
    ?_, ?_, ?_, ?_, ?_⟩
  · rw [List.append_assoc, ← hm, List.takeWhile_append_dropWhile]
  · intro c hc
    exact List.mem_takeWhile_imp hc
  · intro c hc
    exact List.mem_takeWhile_imp (List.mem_reverse.1 hc)
  · intro c hc
    apply head?_dropWhile_false isSpace cs
    rw [hm]
    cases ht : trimChars cs with
    | nil => rw [ht] at hc; simp at hc
    | cons a t => rw [ht] at hc; simpa using hc
  · intro c hc
    apply head?_dropWhile_false isSpace (cs.dropWhile isSpace).reverse
    unfold trimChars at hc
    rw [List.getLast?_reverse] at hc
    exact hc
theorem TrimSpace_eq_empty_iff (s : String) :
    TrimSpace s = "" ↔ ∀ c ∈ s.data, isSpace c = true := by
  rw [← trimChars_eq_nil_iff]
  unfold TrimSpace
  constructor
  · intro h; exact congrArg String.data h
  · intro h; rw [h]

/-! ## `handleSetup` -/

theorem selfdestruct_fs_other (env : Env) (w : World) {q : String}
    (h1 : q ≠ NGINX_CONF) (h2 : q ≠ SERVICE_FILE) : (selfdestruct env w).fs q = w.fs q := by
  simp [selfdestruct, Remove_fs_other _ _ h1, Remove_fs_other _ _ h2]

/-- A submission that is answered with status 200 went through every step of
`handleSetup`. -/
theorem handleSetup_inv (env : Env) (r : Request) (w : World)
    (hm : r.Method = "POST") (hok : (handleSetup env r w).1.status = 200) :
    ∃ w1 w2 w3,
      WriteFile env (hostnameFile env) (TrimSpace (r.FormValue "hostname")) w = (none, w1) ∧
      (if r.FormValue "vhost" = "true"
        then WriteFile env (vhostFile env) (TrimSpace (r.FormValue "hostname")) w1
        else Remove env (vhostFile env) w1) = (none, w2) ∧
      addSSHKey env (TrimSpace (r.FormValue "key")) w2 = (none, w3) ∧
      (handleSetup env r w).2 =
        if env.arg0 = "selfdestruct" then selfdestruct env w3 else w3 := by
  unfold handleSetup at hok ⊢
  simp only [hm, ne_eq, not_true_eq_false, if_false, beq_iff_eq] at hok ⊢
  rcases h1 : WriteFile env (pathJoin (getDokkuRoot env) "HOSTNAME")
      (TrimSpace (r.FormValue "hostname")) w with ⟨e1, w1⟩
  rw [h1] at hok
  cases e1 with
  | some e => simp [httpError] at hok
  | none =>
    simp only at hok ⊢
    rcases h2 : (if r.FormValue "vhost" = "true"
        then WriteFile env (pathJoin (getDokkuRoot env) "VHOST")
          (TrimSpace (r.FormValue "hostname")) w1
        else Remove env (pathJoin (getDokkuRoot env) "VHOST") w1) with ⟨e2, w2⟩
    rw [h2] at hok
    cases e2 with
    | some e => simp [httpError] at hok
    | none =>
      simp only at hok ⊢
      rcases h3 : addSSHKey env (TrimSpace (r.FormValue "key")) w2 with ⟨e3, w3⟩
      rw [h3] at hok
      cases e3 with
      | some e => simp [httpError] at hok
      | none =>
        refine ⟨w1, w2, w3, h1, h2, h3, ?_⟩
        simp only
        split <;> rfl

/-- The world reached by a successful submission before any teardown: the
hostname file and the marker file are as submitted, every other file is
untouched, and four actions were performed. -/
theorem handleSetup_commit (env : Env) (r : Request) (w : World)
    (hm : r.Method = "POST") (hok : (handleSetup env r w).1.status = 200) :
    ∃ w3,
      (handleSetup env r w).2 =
        (if env.arg0 = "selfdestruct" then selfdestruct env w3 else w3) ∧
      w3.fs (hostnameFile env) = some (TrimSpace (r.FormValue "hostname")) ∧
      w3.fs (vhostFile env) =
        (if r.FormValue "vhost" = "true" then some (TrimSpace (r.FormValue "hostname"))
         else none) ∧
      (∀ q, q ≠ hostnameFile env → q ≠ vhostFile env → w3.fs q = w.fs q) ∧
      w3.trace = w.trace ++
        [.write (hostnameFile env) (TrimSpace (r.FormValue "hostname")),
         (if r.FormValue "vhost" = "true"
            then .write (vhostFile env) (TrimSpace (r.FormValue "hostname"))
            else .remove (vhostFile env)),
         .exec aclCommand,
         .stdin aclCommand (TrimSpace (r.FormValue "key"))] := by
  obtain ⟨w1, w2, w3, h1, h2, h3, hfin⟩ := handleSetup_inv env r w hm hok
  obtain ⟨_, e1⟩ := WriteFile_inv h1
  have e3 := addSSHKey_inv h3
  have hne := hostnameFile_ne_vhostFile env
  refine ⟨w3, hfin, ?_⟩
  by_cases hv : r.FormValue "vhost" = "true"
  · rw [if_pos hv] at h2
    obtain ⟨_, e2⟩ := WriteFile_inv h2
    subst e1 e2 e3
    simp only [if_pos hv]
    refine ⟨?_, ?_, ?_, ?_⟩
    · simp [setFile_fs_other _ _ hne]
    · simp
    · intro q hq1 hq2
      simp [setFile_fs_other _ _ hq1, setFile_fs_other _ _ hq2]
    · simp
  · rw [if_neg hv] at h2
    obtain ⟨_, _, e2⟩ := Remove_inv h2
    subst e1 e2 e3
    simp only [if_neg hv]
    refine ⟨?_, ?_, ?_, ?_⟩
    · simp [setFile_fs_other _ _ hne]
    · simp
    · intro q hq1 hq2
      simp [setFile_fs_other _ _ hq1, setFile_fs_other _ _ hq2]
    · simp

/-- The teardown touches no file other than the proxy rule and the boot
service definition: after a successful submission the hostname file and the
marker file are as submitted, in every invocation mode. -/
theorem handleSetup_files (env : Env) (r : Request) (w : World)
    (hm : r.Method = "POST") (hok : (handleSetup env r w).1.status = 200) :
    (handleSetup env r w).2.fs (hostnameFile env) =
        some (TrimSpace (r.FormValue "hostname")) ∧
      (handleSetup env r w).2.fs (vhostFile env) =
        (if r.FormValue "vhost" = "true" then some (TrimSpace (r.FormValue "hostname"))
         else none) := by
  obtain ⟨w3, hfin, hh, hv, _, _⟩ := handleSetup_commit env r w hm hok
  rw [hfin]
  split
  · rw [selfdestruct_fs_other env w3 (NGINX_CONF_ne_hostnameFile env).symm
        (SERVICE_FILE_ne_hostnameFile env).symm,
      selfdestruct_fs_other env w3 (NGINX_CONF_ne_vhostFile env).symm
        (SERVICE_FILE_ne_vhostFile env).symm]
    exact ⟨hh, hv⟩
  · exact ⟨hh, hv⟩

theorem selfdestruct_fs_NGINX_CONF (env : Env) (w : World)
    (h : env.removeFault NGINX_CONF = none) : (selfdestruct env w).fs NGINX_CONF = none := by
  simp [selfdestruct, Remove_fs_other _ _ SERVICE_FILE_ne_NGINX_CONF.symm,
    Remove_fs_same _ _ _ h]

theorem selfdestruct_fs_SERVICE_FILE (env : Env) (w : World)
    (h : env.removeFault SERVICE_FILE = none) :
    (selfdestruct env w).fs SERVICE_FILE = none := by
  simp [selfdestruct, Remove_fs_same _ _ _ h]

theorem addSSHKey_fst_eq_none_iff (env : Env) (k : String) (w : World) :
    (addSSHKey env k w).1 = none ↔
      env.stdinPipeFault aclCommand = none ∧ env.startFault aclCommand = none ∧
      env.stdinWriteFault aclCommand = none ∧ env.stdinCloseFault aclCommand = none ∧
      env.waitFault aclCommand = none := by
  unfold addSSHKey
  cases env.stdinPipeFault aclCommand <;> cases env.startFault aclCommand <;>
    cases env.stdinWriteFault aclCommand <;> cases env.stdinCloseFault aclCommand <;>
    cases env.waitFault aclCommand <;> simp

theorem WriteFile_fst_eq_none_iff (env : Env) (p d : String) (w : World) :
    (WriteFile env p d w).1 = none ↔ env.writeFault p = none := by
  unfold WriteFile
  cases env.writeFault p with
  | none => simp
  | some f => cases f <;> simp

theorem Remove_fst_eq_none_iff (env : Env) (p : String) (w : World) :
    (Remove env p w).1 = none ↔ env.removeFault p = none ∧ w.fs p ≠ none := by
  unfold Remove
  cases env.removeFault p with
  | some e => simp
  | none => cases hx : w.fs p <;> simp [hx]

theorem Remove_of_present (env : Env) {p : String} {w : World}
    (hf : env.removeFault p = none) (h : w.fs p ≠ none) :
    Remove env p w = (none, (w.emit (.remove p)).setFile p none) := by
  unfold Remove
  rw [hf]
  cases hx : w.fs p with
  | none => exact absurd hx h
  | some c => simp [hx]

theorem addSSHKey_of_no_fault (env : Env) (k : String) (w : World)
    (h : env.stdinPipeFault aclCommand = none ∧ env.startFault aclCommand = none ∧
      env.stdinWriteFault aclCommand = none ∧ env.stdinCloseFault aclCommand = none ∧
      env.waitFault aclCommand = none) :
    addSSHKey env k w = (none, (w.emit (.exec aclCommand)).emit (.stdin aclCommand k)) := by
  obtain ⟨h1, h2, h3, h4, h5⟩ := h
  unfold addSSHKey
  rw [h1, h2, h3, h4, h5]

/-- The body of `handleSetup` on a POST request. -/
theorem handleSetup_post_eq (env : Env) (r : Request) (w : World)
    (hm : r.Method = "POST") :
    handleSetup env r w =
      match WriteFile env (hostnameFile env) (TrimSpace (r.FormValue "hostname")) w with
      | (some err, w1) => (httpError err 500, w1)
      | (none, w1) =>
        match (if r.FormValue "vhost" = "true"
            then WriteFile env (vhostFile env) (TrimSpace (r.FormValue "hostname")) w1
            else Remove env (vhostFile env) w1) with
        | (some err, w2) => (httpError err 500, w2)
        | (none, w2) =>
          match addSSHKey env (TrimSpace (r.FormValue "key")) w2 with
          | (some err, w3) => (httpError err 500, w3)
          | (none, w3) =>
            if env.arg0 = "selfdestruct" then
              ({ status := 200, body := .text "" }, selfdestruct env w3)
            else ({ status := 200, body := .text "" }, w3) := by
  unfold handleSetup hostnameFile vhostFile
  simp [hm]

/-- A POST submission is answered with status 200 exactly when every step of
the commit succeeds; the teardown steps play no role. -/
theorem handleSetup_status_200_iff (env : Env) (r : Request) (w : World)
    (hm : r.Method = "POST") :
    (handleSetup env r w).1.status = 200 ↔ stepsSucceed env r w := by
  constructor
  · intro hok
    obtain ⟨w1, w2, w3, h1, h2, h3, _⟩ := handleSetup_inv env r w hm hok
    obtain ⟨f1, e1⟩ := WriteFile_inv h1
    have f3 := (addSSHKey_fst_eq_none_iff env _ w2).1 (by rw [h3])
    refine ⟨f1, ?_, f3⟩
    by_cases hv : r.FormValue "vhost" = "true"
    · rw [if_pos hv] at h2 ⊢
      exact (WriteFile_inv h2).1
    · rw [if_neg hv] at h2 ⊢
      obtain ⟨f2, hex, _⟩ := Remove_inv h2
      subst e1
      exact ⟨f2, by
        simpa [setFile_fs_other _ _ (hostnameFile_ne_vhostFile env).symm] using hex⟩
  · rintro ⟨f1, f2, f3⟩
    have hne := hostnameFile_ne_vhostFile env
    rw [handleSetup_post_eq env r w hm, WriteFile_of_no_fault _ _ f1]
    simp only
    by_cases hv : r.FormValue "vhost" = "true"
    · rw [if_pos hv] at f2
      rw [if_pos hv, WriteFile_of_no_fault _ _ f2]
      simp only
      rw [addSSHKey_of_no_fault env _ _ f3]
      simp only
      split <;> rfl
    · rw [if_neg hv] at f2
      rw [if_neg hv, Remove_of_present env f2.1
        (by rw [setFile_fs_other _ _ hne.symm]; exact f2.2)]
      simp only
      rw [addSSHKey_of_no_fault env _ _ f3]
      simp only
      split <;> rfl

/-! ## The claims on `handleSetup` -/

/-- C1: a request to `/setup` whose method is not POST is answered with status
405 ("Method not allowed") and the world after it is the world before it: no
file is written or removed, no command is started, no teardown step runs;
this for every form content, invocation mode and initial state. -/
theorem handleSetup_rejects_non_post (env : Env) (r : Request) (w : World)
    (h : r.Method ≠ "POST") :
    (handleSetup env r w).1 = httpError "Method not allowed" 405 ∧
      (handleSetup env r w).1.status = 405 ∧
      (handleSetup env r w).2 = w := by
  simp [handleSetup, h, httpError]

theorem handleSetup_rejects_non_post_witness :
    getRequest.Method ≠ "POST" ∧
      (handleSetup selfdestructEnv getRequest installedWorld).1.status = 405 ∧
      (handleSetup selfdestructEnv getRequest installedWorld).2 = installedWorld :=
  ⟨by decide,
   (handleSetup_rejects_non_post selfdestructEnv getRequest installedWorld (by decide)).2⟩

/-- C2: after a successful POST submission with `vhost=true`, the marker file
`DOKKU_ROOT/VHOST` and the hostname file `DOKKU_ROOT/HOSTNAME` have the same
contents, the submitted hostname with leading and trailing white space
trimmed. -/
theorem handleSetup_vhost_marker_eq_hostname (env : Env) (r : Request) (w : World)
    (hm : r.Method = "POST") (hv : r.FormValue "vhost" = "true")
    (hok : (handleSetup env r w).1.status = 200) :
    (handleSetup env r w).2.fs (vhostFile env) =
        (handleSetup env r w).2.fs (hostnameFile env) ∧
      (handleSetup env r w).2.fs (hostnameFile env) =
        some (TrimSpace (r.FormValue "hostname")) ∧
      (handleSetup env r w).2.fs (vhostFile env) =
        some (TrimSpace (r.FormValue "hostname")) := by
  obtain ⟨hh, hvf⟩ := handleSetup_files env r w hm hok
  rw [if_pos hv] at hvf
  exact ⟨by rw [hh, hvf], hh, hvf⟩

theorem handleSetup_vhost_marker_eq_hostname_witness :
    (vhostRequest.Method = "POST" ∧ vhostRequest.FormValue "vhost" = "true" ∧
      (handleSetup selfdestructEnv vhostRequest installedWorld).1.status = 200) ∧
    (handleSetup selfdestructEnv vhostRequest installedWorld).2.fs "/home/dokku/VHOST" =
      some "example.com" ∧
    (handleSetup selfdestructEnv vhostRequest installedWorld).2.fs "/home/dokku/HOSTNAME" =
      some "example.com" :=
  ⟨⟨by decide, by decide, by decide⟩,
   (handleSetup_vhost_marker_eq_hostname selfdestructEnv vhostRequest installedWorld
      (by decide) (by decide) (by decide)).2.2,
   (handleSetup_vhost_marker_eq_hostname selfdestructEnv vhostRequest installedWorld
      (by decide) (by decide) (by decide)).2.1⟩

/-- C3: after a successful POST submission whose `vhost` field is absent or
not `true`, the marker file does not exist and the hostname file holds exactly
the submitted hostname with leading and trailing white space trimmed, whatever
it held before.  (A success already entails that the marker file existed before
the request: its removal is one of the steps.) -/
theorem handleSetup_no_vhost_removes_marker (env : Env) (r : Request) (w : World)
    (hm : r.Method = "POST") (hv : r.FormValue "vhost" ≠ "true")
    (hok : (handleSetup env r w).1.status = 200) :
    w.fs (vhostFile env) ≠ none ∧
      (handleSetup env r w).2.fs (vhostFile env) = none ∧
      (handleSetup env r w).2.fs (hostnameFile env) =
        some (TrimSpace (r.FormValue "hostname")) := by
  obtain ⟨hh, hvf⟩ := handleSetup_files env r w hm hok
  rw [if_neg hv] at hvf
  refine ⟨?_, hvf, hh⟩
  obtain ⟨w1, w2, w3, h1, h2, _, _⟩ := handleSetup_inv env r w hm hok
  rw [if_neg hv] at h2
  obtain ⟨_, e1⟩ := WriteFile_inv h1
  obtain ⟨_, hex, _⟩ := Remove_inv h2
  subst e1
  simpa [setFile_fs_other _ _ (hostnameFile_ne_vhostFile env).symm] using hex

theorem handleSetup_no_vhost_removes_marker_witness :
    (plainRequest.Method = "POST" ∧ plainRequest.FormValue "vhost" ≠ "true" ∧
      (handleSetup calmEnv plainRequest installedWorld).1.status = 200) ∧
    installedWorld.fs "/home/dokku/VHOST" = some "old.example.com" ∧
    (handleSetup calmEnv plainRequest installedWorld).2.fs "/home/dokku/VHOST" = none ∧
    (handleSetup calmEnv plainRequest installedWorld).2.fs "/home/dokku/HOSTNAME" =
      some "example.com" :=
  ⟨⟨by decide, by decide, by decide⟩, by decide,
   (handleSetup_no_vhost_removes_marker calmEnv plainRequest installedWorld
      (by decide) (by decide) (by decide)).2⟩

/-- C4: a POST submission without `vhost=true` made while the marker file does
not exist is answered with status 500 and aborted, in every invocation mode:
the only actions performed are the write of the hostname file and the removal
attempt (so the SSH ACL tool is not started and no teardown step runs), and no
file other than the hostname file changes.  When the write of step 1 went
through, the response carries the text of the removal error and the hostname
file keeps the trimmed hostname written in step 1. -/
theorem handleSetup_no_vhost_marker_absent (env : Env) (r : Request) (w : World)
    (hm : r.Method = "POST") (hv : r.FormValue "vhost" ≠ "true")
    (hab : w.fs (vhostFile env) = none) :
    (handleSetup env r w).1.status = 500 ∧
      (∃ evs, (handleSetup env r w).2.trace = w.trace ++ evs ∧
        ∀ e ∈ evs, e = .write (hostnameFile env) (TrimSpace (r.FormValue "hostname")) ∨
          e = .remove (vhostFile env)) ∧
      (∀ q, q ≠ hostnameFile env → (handleSetup env r w).2.fs q = w.fs q) ∧
      (env.writeFault (hostnameFile env) = none →
        (handleSetup env r w).1 = httpError (removeErrorText env (vhostFile env)) 500 ∧
        (handleSetup env r w).2.fs (hostnameFile env) =
          some (TrimSpace (r.FormValue "hostname")) ∧
        (handleSetup env r w).2.trace = w.trace ++
          [.write (hostnameFile env) (TrimSpace (r.FormValue "hostname")),
           .remove (vhostFile env)]) := by
  have hne := hostnameFile_ne_vhostFile env
  have hunf : handleSetup env r w =
      match WriteFile env (hostnameFile env) (TrimSpace (r.FormValue "hostname")) w with
      | (some err, w1) => (httpError err 500, w1)
      | (none, w1) =>
        match Remove env (vhostFile env) w1 with
        | (some err, w2) => (httpError err 500, w2)
        | (none, w2) =>
          match addSSHKey env (TrimSpace (r.FormValue "key")) w2 with
          | (some err, w3) => (httpError err 500, w3)
          | (none, w3) =>
            if env.arg0 = "selfdestruct" then
              ({ status := 200, body := .text "" }, selfdestruct env w3)
            else ({ status := 200, body := .text "" }, w3) := by
    unfold handleSetup hostnameFile vhostFile
    simp [hm, hv]
  rw [hunf]
  by_cases hf : env.writeFault (hostnameFile env) = none
  · rw [WriteFile_of_no_fault _ _ hf]
    have habs : ((w.emit (.write (hostnameFile env)
        (TrimSpace (r.FormValue "hostname")))).setFile (hostnameFile env)
        (some (TrimSpace (r.FormValue "hostname")))).fs (vhostFile env) = none := by
      rw [setFile_fs_other _ _ hne.symm]; exact hab
    simp only [Remove_of_absent env habs]
    refine ⟨rfl, ⟨[.write (hostnameFile env) (TrimSpace (r.FormValue "hostname")),
      .remove (vhostFile env)], by simp, by simp⟩, ?_, fun _ => ⟨trivial, by simp, by simp⟩⟩
    intro q hq
    simp [setFile_fs_other _ _ hq]
  · obtain ⟨e, he⟩ := WriteFile_fault env (hostnameFile env)
      (TrimSpace (r.FormValue "hostname")) w hf
    have ht := WriteFile_trace env (hostnameFile env) (TrimSpace (r.FormValue "hostname")) w
    have hfs := fun q (hq : q ≠ hostnameFile env) =>
      WriteFile_fs_other env (TrimSpace (r.FormValue "hostname")) w hq
    rcases hW : WriteFile env (hostnameFile env) (TrimSpace (r.FormValue "hostname")) w
      with ⟨e1, w1⟩
    rw [hW] at he ht hfs
    simp only at he ht hfs
    subst he
    exact ⟨rfl, ⟨_, ht, by simp⟩, hfs, fun h => absurd h hf⟩

theorem handleSetup_no_vhost_marker_absent_witness :
    (plainRequest.Method = "POST" ∧ plainRequest.FormValue "vhost" ≠ "true" ∧
      firstRunWorld.fs (vhostFile selfdestructEnv) = none ∧
      selfdestructEnv.writeFault (hostnameFile selfdestructEnv) = none) ∧
    (handleSetup selfdestructEnv plainRequest firstRunWorld).1 =
      httpError "remove /home/dokku/VHOST: no such file or directory" 500 ∧
    (handleSetup selfdestructEnv plainRequest firstRunWorld).2.fs "/home/dokku/HOSTNAME" =
      some "example.com" ∧
    (handleSetup selfdestructEnv plainRequest firstRunWorld).2.trace =
      [.write "/home/dokku/HOSTNAME" "example.com", .remove "/home/dokku/VHOST"] :=
  ⟨⟨by decide, by decide, by decide, by decide⟩,
   (handleSetup_no_vhost_marker_absent selfdestructEnv plainRequest firstRunWorld
      (by decide) (by decide) (by decide)).2.2.2 (by decide)⟩

/-- C5 as stated fails: in self-destruct mode, on a system that refuses the
removal of the boot service definition, a submission succeeds (status 200) and
the boot service definition is still there afterwards. -/
theorem handleSetup_selfdestruct_service_file_stays :
    stuckEnv.arg0 = "selfdestruct" ∧ vhostRequest.Method = "POST" ∧
      (handleSetup stuckEnv vhostRequest installedWorld).1.status = 200 ∧
      ¬ ((handleSetup stuckEnv vhostRequest installedWorld).2.fs SERVICE_FILE = none ∧
         (handleSetup stuckEnv vhostRequest installedWorld).2.fs NGINX_CONF = none) := by
  decide

/-- C5, amended: after a successful POST submission in self-destruct mode, the
boot service definition is absent unless its removal was refused by the
system, and likewise the proxy rule; the outcomes of the proxy restart and of
the service stop play no role. -/
theorem handleSetup_selfdestruct_removes (env : Env) (r : Request) (w : World)
    (hm : r.Method = "POST") (hsd : env.arg0 = "selfdestruct")
    (hok : (handleSetup env r w).1.status = 200) :
    (env.removeFault SERVICE_FILE = none → (handleSetup env r w).2.fs SERVICE_FILE = none) ∧
      (env.removeFault NGINX_CONF = none → (handleSetup env r w).2.fs NGINX_CONF = none) := by
  obtain ⟨w3, hfin, _⟩ := handleSetup_commit env r w hm hok
  rw [hfin, if_pos hsd]
  exact ⟨selfdestruct_fs_SERVICE_FILE env w3, selfdestruct_fs_NGINX_CONF env w3⟩

theorem handleSetup_selfdestruct_removes_witness :
    (vhostRequest.Method = "POST" ∧ stuckEnv.arg0 = "selfdestruct" ∧
      (handleSetup stuckEnv vhostRequest installedWorld).1.status = 200 ∧
      stuckEnv.removeFault NGINX_CONF = none ∧
      stuckEnv.startFault ["restart nginx"] ≠ none) ∧
    (handleSetup stuckEnv vhostRequest installedWorld).2.fs NGINX_CONF = none :=
  ⟨⟨by decide, by decide, by decide, by decide, by decide⟩,
   (handleSetup_selfdestruct_removes stuckEnv vhostRequest installedWorld
      (by decide) (by decide) (by decide)).2 (by decide)⟩

/-- C6: after a successful POST submission in a mode other than
`selfdestruct`, the hostname file and the marker file are as submitted, every
other file, in particular the boot service definition and the proxy rule, is
exactly as before the request, and the actions performed are the two file
operations and the run of the SSH ACL tool: neither the proxy restart nor the
service stop is started. -/
theorem handleSetup_no_teardown (env : Env) (r : Request) (w : World)
    (hm : r.Method = "POST") (hmode : env.arg0 ≠ "selfdestruct")
    (hok : (handleSetup env r w).1.status = 200) :
    (handleSetup env r w).2.fs (hostnameFile env) =
        some (TrimSpace (r.FormValue "hostname")) ∧
      (handleSetup env r w).2.fs (vhostFile env) =
        (if r.FormValue "vhost" = "true" then some (TrimSpace (r.FormValue "hostname"))
         else none) ∧
      (handleSetup env r w).2.fs SERVICE_FILE = w.fs SERVICE_FILE ∧
      (handleSetup env r w).2.fs NGINX_CONF = w.fs NGINX_CONF ∧
      (∀ q, q ≠ hostnameFile env → q ≠ vhostFile env →
        (handleSetup env r w).2.fs q = w.fs q) ∧
      (∃ evs, (handleSetup env r w).2.trace = w.trace ++ evs ∧
        evs = [.write (hostnameFile env) (TrimSpace (r.FormValue "hostname")),
          (if r.FormValue "vhost" = "true"
            then .write (vhostFile env) (TrimSpace (r.FormValue "hostname"))
            else .remove (vhostFile env)),
          .exec aclCommand,
          .stdin aclCommand (TrimSpace (r.FormValue "key"))] ∧
        Event.exec ["restart nginx"] ∉ evs ∧
        Event.exec ["stop dokku-installer"] ∉ evs) := by
  obtain ⟨w3, hfin, hh, hv, hframe, htr⟩ := handleSetup_commit env r w hm hok
  rw [hfin, if_neg hmode]
  refine ⟨hh, hv, ?_, ?_, hframe, _, htr, rfl, ?_, ?_⟩
  · exact hframe _ (SERVICE_FILE_ne_hostnameFile env) (SERVICE_FILE_ne_vhostFile env)
  · exact hframe _ (NGINX_CONF_ne_hostnameFile env) (NGINX_CONF_ne_vhostFile env)
  · have : Event.exec ["restart nginx"] ≠ Event.exec aclCommand := by decide
    split <;> simp [this]
  · have : Event.exec ["stop dokku-installer"] ≠ Event.exec aclCommand := by decide
    split <;> simp [this]

theorem handleSetup_no_teardown_witness :
    (vhostRequest.Method = "POST" ∧ calmEnv.arg0 ≠ "selfdestruct" ∧
      (handleSetup calmEnv vhostRequest installedWorld).1.status = 200) ∧
    (handleSetup calmEnv vhostRequest installedWorld).2.fs "/home/dokku/HOSTNAME" =
      some "example.com" ∧
    (handleSetup calmEnv vhostRequest installedWorld).2.fs "/home/dokku/VHOST" =
      some "example.com" ∧
    (handleSetup calmEnv vhostRequest installedWorld).2.fs SERVICE_FILE =
      installedWorld.fs SERVICE_FILE ∧
    (handleSetup calmEnv vhostRequest installedWorld).2.fs NGINX_CONF =
      installedWorld.fs NGINX_CONF :=
  ⟨⟨by decide, by decide, by decide⟩,
   (handleSetup_no_teardown calmEnv vhostRequest installedWorld
      (by decide) (by decide) (by decide)).1,
   (handleSetup_no_teardown calmEnv vhostRequest installedWorld
      (by decide) (by decide) (by decide)).2.1,
   (handleSetup_no_teardown calmEnv vhostRequest installedWorld
      (by decide) (by decide) (by decide)).2.2.1,
   (handleSetup_no_teardown calmEnv vhostRequest installedWorld
      (by decide) (by decide) (by decide)).2.2.2.1⟩

/-- C9 as stated fails: a submission whose hostname field holds white space
only is answered with status 200 and leaves an empty hostname file. -/
theorem handleSetup_blank_hostname_accepted :
    blankRequest.Method = "POST" ∧
      (handleSetup calmEnv blankRequest installedWorld).1.status = 200 ∧
      (handleSetup calmEnv blankRequest installedWorld).2.fs (hostnameFile calmEnv) =
        some "" := by
  decide

/-- C9, amended: after a successful POST submission the hostname file holds the
submitted hostname with leading and trailing white space trimmed; it is
non-empty exactly when the submitted hostname has a character that is not
white space (the handler checks nothing about the field). -/
theorem handleSetup_hostname_record (env : Env) (r : Request) (w : World)
    (hm : r.Method = "POST") (hok : (handleSetup env r w).1.status = 200) :
    (handleSetup env r w).2.fs (hostnameFile env) =
        some (TrimSpace (r.FormValue "hostname")) ∧
      (TrimSpace (r.FormValue "hostname") ≠ "" ↔
        ∃ c ∈ (r.FormValue "hostname").data, isSpace c = false) := by
  refine ⟨(handleSetup_files env r w hm hok).1, ?_⟩
  rw [ne_eq, TrimSpace_eq_empty_iff]
  simp

theorem handleSetup_hostname_record_witness :
    (plainRequest.Method = "POST" ∧
      (handleSetup calmEnv plainRequest installedWorld).1.status = 200) ∧
    (handleSetup calmEnv plainRequest installedWorld).2.fs "/home/dokku/HOSTNAME" =
      some "example.com" :=
  ⟨⟨by decide, by decide⟩,
   (handleSetup_hostname_record calmEnv plainRequest installedWorld
      (by decide) (by decide)).1⟩

/-! ## The probes -/

/-- With the limit 1, `strings.SplitN` does not split at all. -/
theorem SplitN_one (s sep : String) (h : sep ≠ "") : SplitN s sep 1 = [s] := by
  simp [SplitN, h, splitLoop]

/-- On a readable file `getAdminKey` returns the whole contents. -/
theorem getAdminKey_readable (env : Env) (w : World) (c : String)
    (hr : env.readFault ROOT_KEYS = none) (hc : w.fs ROOT_KEYS = some c) :
    getAdminKey env w = .ret (c, none) := by
  simp [getAdminKey, ReadFile, hr, hc, SplitN_one]

/-- C7, the code at a file with two keys: `getAdminKey` returns both lines, not
the first line `ssh-rsa AAAA admin`, which is what a split into two pieces
gives. -/
theorem getAdminKey_two_keys :
    twoKeysWorld.fs ROOT_KEYS = some "ssh-rsa AAAA admin\nssh-rsa BBBB guest\n" ∧
      getAdminKey calmEnv twoKeysWorld =
        .ret ("ssh-rsa AAAA admin\nssh-rsa BBBB guest\n", none) ∧
      (SplitN "ssh-rsa AAAA admin\nssh-rsa BBBB guest\n" "\n" 2).head? =
        some "ssh-rsa AAAA admin" := by
  decide

/-- With a response in hand (`http.Get` returned a non-nil pointer),
`getExternalIP` returns. -/
theorem getExternalIP_returns (env : Env) (resp : HttpResponse) (e : Option String)
    (h : env.httpGet "http://icanhazip.com" = (some resp, e)) :
    ∃ v, getExternalIP env = .ret v := by
  unfold getExternalIP
  rw [h]
  cases e with
  | some err => exact ⟨_, rfl⟩
  | none =>
    rcases hr : resp.readAll with ⟨body, err⟩
    cases err with
    | some err => exact ⟨("", some err), by simp [hr]⟩
    | none => exact ⟨(TrimSpace body, none), by simp [hr]⟩

theorem getAdminKey_returns (env : Env) (w : World) :
    ∃ k e, getAdminKey env w = .ret (k, e) ∧ (e ≠ none → k = "") := by
  unfold getAdminKey
  rcases hr : ReadFile env ROOT_KEYS w with ⟨keys, err⟩
  cases err with
  | some e => exact ⟨"", some e, rfl, fun _ => rfl⟩
  | none => exact ⟨keys, none, by simp [SplitN_one], fun h => absurd rfl h⟩

/-- Whenever `http.Get` hands back a response pointer, whatever else fails,
`handleRoot` renders the form with status 200. -/
theorem handleRoot_renders (env : Env) (w : World) (resp : HttpResponse)
    (e : Option String) (h : env.httpGet "http://icanhazip.com" = (some resp, e)) :
    ∃ k hn, (handleRoot env w).1 = .ret { status := 200, body := .page VERSION k hn } := by
  obtain ⟨k, ek, hk, _⟩ := getAdminKey_returns env w
  obtain ⟨⟨ip, eip⟩, hip⟩ := getExternalIP_returns env resp e h
  unfold handleRoot
  rw [hk]
  have hH : ∀ w1, ∃ hn eh w2, getHostname env w1 = (.ret (hn, eh), w2) := by
    intro w1
    unfold getHostname
    rcases env.osHostname with ⟨hn, eh⟩
    simp only
    split
    · exact ⟨ip, eip, w1, by rw [hip]⟩
    · rcases testHostname env hn w1 with ⟨et, wt⟩
      cases et with
      | some _ => exact ⟨ip, eip, wt, by simp [hip]⟩
      | none => exact ⟨hn, none, wt, rfl⟩
  cases ek with
  | some ek =>
    obtain ⟨hn, eh, w2, hg⟩ := hH (w.println ek)
    simp only [hg]
    cases eh with
    | some _ => exact ⟨_, _, rfl⟩
    | none => exact ⟨_, _, rfl⟩
  | none =>
    obtain ⟨hn, eh, w2, hg⟩ := hH w
    simp only [hg]
    cases eh with
    | some _ => exact ⟨_, _, rfl⟩
    | none => exact ⟨_, _, rfl⟩

/-- C8, the code at a machine without network: the local hostname is empty, the
query of the public address fails without a response, and `handleRoot` panics
in `getExternalIP` instead of rendering the form with a blank hostname. -/
theorem handleRoot_panics_offline :
    offlineEnv.osHostname = ("", none) ∧
      offlineEnv.httpGet "http://icanhazip.com" =
        (none, some "Get http://icanhazip.com: dial tcp: no such host") ∧
      getExternalIP offlineEnv =
        .panic "invalid memory address or nil pointer dereference" ∧
      (getHostname offlineEnv twoKeysWorld).1 =
        .panic "invalid memory address or nil pointer dereference" ∧
      (handleRoot offlineEnv twoKeysWorld).1 =
        .panic "invalid memory address or nil pointer dereference" := by
  refine ⟨rfl, rfl, rfl, rfl, rfl⟩

/-! ## `doOnboot` -/

theorem removals_append (xs ys : List Event) :
    removals (xs ++ ys) = removals xs ++ removals ys := by
  induction xs with
  | nil => rfl
  | cons e xs ih => cases e <;> simp [removals, ih]

theorem Remove_fs_absent (env : Env) (w : World) (p q : String) (h : w.fs q = none) :
    (Remove env p w).2.fs q = none := by
  by_cases hq : q = p
  · subst hq
    unfold Remove
    cases env.removeFault q with
    | some e => exact h
    | none => simp [h]
  · rw [Remove_fs_other env w hq]; exact h

theorem removeSites_cons_eq (env : Env) (f : String) (rest : List String) (w : World) :
    removeSites env (f :: rest) w =
      match Remove env (pathJoin NGINX_SITES_ENABLED f) w with
      | (some err, w1) =>
        removeSites env rest (w1.println (NGINX_SITES_ENABLED ++ " " ++ f ++ " " ++ err))
      | (none, w1) => removeSites env rest w1 := rfl

/-- The world after one entry of the loop of `doOnboot`. -/
theorem removeSites_cons (env : Env) (f : String) (rest : List String) (w : World) :
    ∃ w1, removeSites env (f :: rest) w = removeSites env rest w1 ∧
      (∃ evs, w1.trace = w.trace ++ evs ∧
        removals evs = [pathJoin NGINX_SITES_ENABLED f]) ∧
      (∀ q, w.fs q = none → w1.fs q = none) ∧
      (env.removeFault (pathJoin NGINX_SITES_ENABLED f) = none →
        w1.fs (pathJoin NGINX_SITES_ENABLED f) = none) := by
  have ht := Remove_trace env w (pathJoin NGINX_SITES_ENABLED f)
  have ha := fun q => Remove_fs_absent env w (pathJoin NGINX_SITES_ENABLED f) q
  have hs := Remove_fs_same env w (pathJoin NGINX_SITES_ENABLED f)
  rw [removeSites_cons_eq]
  rcases hR : Remove env (pathJoin NGINX_SITES_ENABLED f) w with ⟨e, w1⟩
  rw [hR] at ht ha hs
  simp only at ht ha hs
  cases e with
  | some err =>
    refine ⟨w1.println (NGINX_SITES_ENABLED ++ " " ++ f ++ " " ++ err), rfl,
      ⟨[.remove (pathJoin NGINX_SITES_ENABLED f),
        .print (NGINX_SITES_ENABLED ++ " " ++ f ++ " " ++ err)], ?_, rfl⟩, ha, hs⟩
    rw [println_trace, ht, List.append_assoc]; rfl
  | none => exact ⟨w1, rfl, ⟨[.remove (pathJoin NGINX_SITES_ENABLED f)], ht, rfl⟩, ha, hs⟩

theorem removeSites_spec (env : Env) (sites : List String) (w : World) :
    (∃ evs, (removeSites env sites w).trace = w.trace ++ evs ∧
      removals evs = sites.map (pathJoin NGINX_SITES_ENABLED)) ∧
    (∀ q, w.fs q = none → (removeSites env sites w).fs q = none) ∧
    (∀ f ∈ sites, env.removeFault (pathJoin NGINX_SITES_ENABLED f) = none →
      (removeSites env sites w).fs (pathJoin NGINX_SITES_ENABLED f) = none) := by
  induction sites generalizing w with
  | nil => exact ⟨⟨[], by simp [removeSites], rfl⟩, fun _ h => h, by simp⟩
  | cons f rest ih =>
    obtain ⟨w1, hw1, ⟨evs1, ht1, hr1⟩, habs1, hrm1⟩ := removeSites_cons env f rest w
    obtain ⟨⟨evs2, ht2, hr2⟩, habs2, hrm2⟩ := ih w1
    rw [hw1]
    refine ⟨⟨evs1 ++ evs2, ?_, ?_⟩, fun q h => habs2 q (habs1 q h), ?_⟩
    · rw [ht2, ht1, List.append_assoc]
    · rw [removals_append, hr1, hr2]; rfl
    · intro g hg hfault
      rcases List.mem_cons.1 hg with rfl | hg
      · exact habs2 _ (hrm1 hfault)
      · exact hrm2 g hg hfault

/-- C10: when the executable path is resolved, the two files are written and
the directory is listed, `doOnboot` returns no error whatever removals fail,
calls the removal once for every listed entry, in the order of the listing,
and every entry whose removal the system does not refuse is absent
afterwards. -/
theorem doOnboot_removes_sites (env : Env) (w : World) (execPath : String)
    (sites : List String)
    (h1 : env.readlink "/proc/self/exe" = (execPath, none))
    (h2 : env.writeFault SERVICE_FILE = none)
    (h3 : env.writeFault NGINX_CONF = none)
    (h4 : env.readDir NGINX_SITES_ENABLED = (sites, none)) :
    (doOnboot env w).1 = none ∧
      (∃ evs, (doOnboot env w).2.trace =
          w.trace ++ [.write SERVICE_FILE (initContent execPath),
            .write NGINX_CONF nginxConfig] ++ evs ∧
        removals evs = sites.map (pathJoin NGINX_SITES_ENABLED)) ∧
      (∀ f ∈ sites, env.removeFault (pathJoin NGINX_SITES_ENABLED f) = none →
        (doOnboot env w).2.fs (pathJoin NGINX_SITES_ENABLED f) = none) := by
  have hunf : doOnboot env w = (none, (removeSites env sites
      (((w.emit (.write SERVICE_FILE (initContent execPath))).setFile SERVICE_FILE
        (some (initContent execPath))).emit (.write NGINX_CONF nginxConfig) |>.setFile
        NGINX_CONF (some nginxConfig))).println
      "Installed Upstart service and default Nginx virtualhost for installer to run on boot.") := by
    unfold doOnboot
    simp only [h1, WriteFile_of_no_fault _ _ h2, WriteFile_of_no_fault _ _ h3, h4]
  obtain ⟨⟨evs, ht, hr⟩, _, hrm⟩ := removeSites_spec env sites
    (((w.emit (.write SERVICE_FILE (initContent execPath))).setFile SERVICE_FILE
      (some (initContent execPath))).emit (.write NGINX_CONF nginxConfig) |>.setFile
      NGINX_CONF (some nginxConfig))
  rw [hunf]
  refine ⟨rfl, ⟨evs ++ [.print
    "Installed Upstart service and default Nginx virtualhost for installer to run on boot."],
    ?_, ?_⟩, ?_⟩
  · rw [println_trace, ht]; simp
  · rw [removals_append, hr]; simp [removals]
  · intro f hf hfault
    rw [println_fs]
    exact hrm f hf hfault

theorem doOnboot_removes_sites_witness :
    (busyEnv.readlink "/proc/self/exe" = ("/usr/local/bin/dokku-installer", none) ∧
      busyEnv.writeFault SERVICE_FILE = none ∧ busyEnv.writeFault NGINX_CONF = none ∧
      busyEnv.readDir NGINX_SITES_ENABLED = (["default", "old-site"], none) ∧
      busyEnv.removeFault "/etc/nginx/sites-enabled/default" ≠ none ∧
      twoKeysWorld.fs "/etc/nginx/sites-enabled/old-site" ≠ none) ∧
    (doOnboot busyEnv twoKeysWorld).1 = none ∧
    (doOnboot busyEnv twoKeysWorld).2.fs "/etc/nginx/sites-enabled/old-site" = none :=
  ⟨⟨by decide, by decide, by decide, by decide, by decide, by decide⟩,
   (doOnboot_removes_sites busyEnv twoKeysWorld "/usr/local/bin/dokku-installer"
      ["default", "old-site"] (by decide) (by decide) (by decide) (by decide)).1,
   (doOnboot_removes_sites busyEnv twoKeysWorld "/usr/local/bin/dokku-installer"
      ["default", "old-site"] (by decide) (by decide) (by decide) (by decide)).2.2
      "old-site" (by decide) (by decide)⟩

end DokkuInstaller
